import Mathlib

/-!
Shallow embedding of the measurement-and-control loop of the
Arduino BMS/charger sketch (src/Arduino_BMS_4S-v1.ino), together with
theorems settling the spec claims about it.

Voltages (C `float`) are modelled as rationals; the C float-to-integer
conversions are modelled as explicit truncation (`Int.floor` on the
positive ranges involved); byte-sized machine integers are modelled as
`Nat` with explicit wraparound where the source can overflow.
-/

namespace BMS

/-! ### Charge current regulator (loop, lines 183-188)

Source:
  if( Imax || ( Vcell[0] < 4.9)) {
    if( pwm > 0 ) pwm--;
  }
  else if( pwm < 255 ) pwm++;
-/

/-- The throttle condition of the buck-converter regulator, exactly as the
source computes it: `Imax || (Vcell[0] < 4.9)`. -/
def pwmThrottle (imax : Bool) (vcell0 : ℚ) : Bool :=
  imax || decide (vcell0 < 49/10)

/-- One control tick of the duty-cycle regulator: decrement (floored at 0)
when the throttle condition holds, otherwise increment (capped at 255).
`pwm` is the C `byte` duty value. -/
def pwmStep (imax : Bool) (vcell0 : ℚ) (pwm : Nat) : Nat :=
  if pwmThrottle imax vcell0 then
    if 0 < pwm then pwm - 1 else pwm
  else
    if pwm < 255 then pwm + 1 else pwm

/-- Iterating the regulator over a sequence of (overcurrent flag,
bottom-cell reading) inputs, one tick per list element. -/
def pwmRun : List (Bool × ℚ) → Nat → Nat
  | [], p => p
  | (i, v) :: rest, p => pwmRun rest (pwmStep i v p)

/-! ### Sampling-window guard (loop, lines 191-200)

Source:
  if( ++analogReadsCount > 100 ) return;
  ... voltage resolution: Vcell[i] computed, VcellCumul[i] = 0 ...
  analogReadsCount = 0;
-/

/-- One tick of the sampling-window bookkeeping.  The counter is
pre-incremented; when the incremented count exceeds 100 the function
returns early (no resolution, counter keeps the incremented value);
otherwise the resolution block runs and resets the counter to 0.
Returns (whether the resolution block ran, counter after the tick). -/
def windowStep (count : Nat) : Bool × Nat :=
  if 100 < count + 1 then (false, count + 1) else (true, 0)

/-- The counter value after a tick, for iterating the tick. -/
def windowCount (count : Nat) : Nat := (windowStep count).2

/-! ### Cell array and voltage resolution (loop, lines 196-204) -/

/-- The four per-slot voltage values (`Vcell[0..3]` / `VcellCumul[0..3]`). -/
structure Cells where
  b0 : ℚ
  b1 : ℚ
  b2 : ℚ
  b3 : ℚ
deriving DecidableEq

/-- The telescoping difference loop, descending as in the source so that
each subtraction reads the not-yet-rewritten lower entry:
`for( byte i=3; i>0; i-- ) Vcell[i] -= Vcell[i-1];`. -/
def telescope (V : Cells) : Cells :=
  let v3 := V.b3 - V.b2
  let v2 := V.b2 - V.b1
  let v1 := V.b1 - V.b0
  { b0 := V.b0, b1 := v1, b2 := v2, b3 := v3 }

/-- `Valim = Vcell[3];`, read before the differencing loop runs. -/
def resolveValim (V : Cells) : ℚ := V.b3

/-! ### Balancing and undervoltage check (loop, lines 212-217)

Source, run once per second:
  for( byte i=0; i<4; i++ ) {
    if( Vcell[i] > Vmax[cellModel] ) digitalWrite( shuntPin[i], HIGH );
    else if( oneMinute && ( Vcell[i] < Vmin[cellModel])) buzzerON = true;
  }
  if( buzzerON ) tone( buzzerPin, 440, 50 );
`buzzerON` is a static that this block only ever sets; it is cleared
solely by the `runOnce` block (line 156), which runs at start-up, on a
configuration change, and at every 60-second boundary.
-/

/-- Per-cell body of the balancing/undervoltage loop acting on the
`buzzerON` flag. -/
def buzzerCell (oneMinute : Bool) (vmax vmin v : ℚ) (b : Bool) : Bool :=
  if vmax < v then b
  else if oneMinute && decide (v < vmin) then true
  else b

/-- One per-second evaluation of the undervoltage alarm over all four
cell slots, in source order. -/
def buzzerCheck (oneMinute : Bool) (vmax vmin : ℚ) (V : Cells) (b : Bool) : Bool :=
  buzzerCell oneMinute vmax vmin V.b3
    (buzzerCell oneMinute vmax vmin V.b2
      (buzzerCell oneMinute vmax vmin V.b1
        (buzzerCell oneMinute vmax vmin V.b0 b)))

/-- A run of per-second evaluations all taken before the first full
minute (`oneMinute` still false); each element carries that second's
(Vmax, Vmin, cell readings). -/
def buzzerRunPreMinute (steps : List (ℚ × ℚ × Cells)) (b : Bool) : Bool :=
  steps.foldl (fun acc s => buzzerCheck false s.1 s.2.1 s.2.2 acc) b

/-- The `runOnce` block's effect on the alarm flag: `buzzerON = false;`
(line 156). -/
def runOnceBuzzer (_b : Bool) : Bool := false

/-! ### Console B command (serialEvent, lines 419-426)

Source (c1..c5 are the ASCII codes of consoleInput[1..5]):
  val = (consoleInput[5]-48)+(10*(consoleInput[4]-48))
        +(100*(consoleInput[3]-48))+(1000*(consoleInput[2]-48));
  cell = consoleInput[1] -49;
  if( cell > cellNumber ) Serial.println(F("cell number out of range"));
  else if( val < 800 || val > 1200 ) Serial.println(F("Calibration value out of range"));
  else Vcalibration[cell] = val/1000.0;
-/

/-- Outcome of the B command on the calibration array: a rejection with
one of the two diagnostics, or a write of `val/1000` at C array index
`idx` of the 4-element `Vcalibration` (nothing in the source keeps `idx`
inside 0..3). -/
inductive BAction where
  | rejectCell
  | rejectVal
  | write (idx : ℤ) (v : ℚ)
deriving DecidableEq

/-- The B-command handler; `c1 c2 c3 c4 c5` are the ASCII codes of
`consoleInput[1]`..`consoleInput[5]` as C `int`s, `cellNumber` the
configured cell count. -/
def bCommand (c1 c2 c3 c4 c5 : ℤ) (cellNumber : ℤ) : BAction :=
  let val : ℤ := (c5 - 48) + 10*(c4 - 48) + 100*(c3 - 48) + 1000*(c2 - 48)
  let cell : ℤ := c1 - 49
  if cellNumber < cell then .rejectCell
  else if val < 800 ∨ 1200 < val then .rejectVal
  else .write cell ((val : ℚ) / 1000)

/-! ### EEPROM encodings (EEPROM_Update lines 300-311, EEPROM_Get lines 284-294)

Update:
  int var = 1000*Vcalibration[i];
  EEPROM.update((2*i), highByte(var)); EEPROM.update(((2*i)+1), lowByte(var));
  EEPROM.update(8, ((Vmax[0]*100.0)-300));  ... etc for bytes 9,10,11
Get:
  int var = (EEPROM.read(2*i) << 8) + EEPROM.read((2*i)+1);
  Vcalibration[i] = var/1000.0;
  Vmax[0] = (EEPROM.read(8)+300)/100.0;  ... etc
The C float-to-int conversion truncates toward zero, which on the
positive values involved is `Int.floor`; a float-to-byte conversion
whose value does not fit in 0..255 is modelled as two's-complement
wraparound (`emod 256`), the de-facto AVR behaviour. -/

/-- Encode one calibration multiplier as the (highByte, lowByte) pair of
`int var = 1000*x`. -/
def encodeCal (x : ℚ) : Nat × Nat :=
  let var := (⌊1000 * x⌋).toNat
  (var / 256 % 256, var % 256)

/-- Decode a calibration byte pair: `((hi << 8) + lo) / 1000.0`. -/
def decodeCal (p : Nat × Nat) : ℚ := ((p.1 * 256 + p.2 : ℕ) : ℚ) / 1000

/-- Encode one threshold voltage as the byte `(v*100.0) - 300`. -/
def encodeThr (v : ℚ) : Nat :=
  ((⌊100 * v⌋ - 300).emod 256).toNat

/-- Decode a threshold byte: `(b + 300) / 100.0`. -/
def decodeThr (b : Nat) : ℚ := ((b : ℚ) + 300) / 100

/-! ### Chemistry thresholds and console L/H commands
(globals lines 63-64; serialEvent lines 427-448)

Source of the L branch (H is identical on Vmax):
  val = (consoleInput[4]-48)+(10*(consoleInput[3]-48))+(100*(consoleInput[2]-48));
  if( val < 270 || val > 460 ) { Serial.println(F("cell voltage value out of range")); break; }
  if((consoleInput[1] == 't') || (consoleInput[1] == 'T')) Vmin[0] = val/100.0;
  else if((consoleInput[1] == 'f') || (consoleInput[1] == 'F')) Vmin[1] = val/100.0;
  else Serial.println(F("unrecognised cells model"));
-/

/-- The four chemistry threshold globals: `Vmax[0] Vmax[1] Vmin[0] Vmin[1]`
(index 0 = Li-ion, index 1 = LiFePO4). -/
structure Thresholds where
  vmaxLi : ℚ
  vmaxFe : ℚ
  vminLi : ℚ
  vminFe : ℚ
deriving DecidableEq

/-- The initialisers `Vmax[2] = { 4.2, 3.7 }` and `Vmin[2] = { 3.6, 3.2 }`. -/
def initThresholds : Thresholds :=
  { vmaxLi := 42/10, vmaxFe := 37/10, vminLi := 36/10, vminFe := 32/10 }

/-- The 3-digit value parse shared by the L and H branches; arguments are
the ASCII codes of `consoleInput[2..4]`. -/
def parse3 (c2 c3 c4 : ℤ) : ℤ :=
  (c4 - 48) + 10*(c3 - 48) + 100*(c2 - 48)

/-- The L command: set a chemistry Vmin.  `c1` is the ASCII code of
`consoleInput[1]` (116 = t, 84 = T, 102 = f, 70 = F). -/
def lCommand (c1 c2 c3 c4 : ℤ) (s : Thresholds) : Thresholds :=
  let val := parse3 c2 c3 c4
  if val < 270 ∨ 460 < val then s
  else if c1 = 116 ∨ c1 = 84 then { s with vminLi := (val : ℚ) / 100 }
  else if c1 = 102 ∨ c1 = 70 then { s with vminFe := (val : ℚ) / 100 }
  else s

/-- The H command: set a chemistry Vmax, same validation as `lCommand`. -/
def hCommand (c1 c2 c3 c4 : ℤ) (s : Thresholds) : Thresholds :=
  let val := parse3 c2 c3 c4
  if val < 270 ∨ 460 < val then s
  else if c1 = 116 ∨ c1 = 84 then { s with vmaxLi := (val : ℚ) / 100 }
  else if c1 = 102 ∨ c1 = 70 then { s with vmaxFe := (val : ℚ) / 100 }
  else s

/-! ### Configuration resolver (RotactorConfig, lines 247-266) -/

/-- The state RotactorConfig reads and writes: the derived configuration,
the re-settle flag, and the three memo lines. -/
structure RotState where
  cellModel : Bool
  cellNumber : Nat
  runOnce : Bool
  memoU : Bool
  memoD : Bool
  memoC : Bool
deriving DecidableEq

/-- Whether a call with lines `u d c` sets the re-settle flag:
`(Urc != memo_Urc) || (Drc != memo_Drc) || (Crc != memo_Crc)`. -/
def rotChanged (u d c : Bool) (s : RotState) : Bool :=
  (u != s.memoU) || (d != s.memoD) || (c != s.memoC)

/-- One call of `RotactorConfig()` with selector lines `u d c`:
chemistry from `Crc`, cell count from the `Urc`/`Drc` truth table,
`runOnce` set (never cleared) on any line change, memos updated. -/
def rotactorConfig (u d c : Bool) (s : RotState) : RotState :=
  { cellModel := c
    cellNumber := if u then (if d then 4 else 2) else (if d then 3 else 1)
    runOnce := if rotChanged u d c s then true else s.runOnce
    memoU := u
    memoD := d
    memoC := c }

/-! ### serialEvent input buffering (lines 405-415)

Source, per received byte:
  if( incomingChar != '\n' ) { consoleInput[index] = incomingChar; index++; }
  else { consoleInput[index] ='\0'; index = 0; ... }
`consoleInput` is `char[7]` (line 90), so the valid indices are 0..6.
-/

/-- The sequence of `consoleInput` indices written while processing a
byte stream, starting from write index `i`: every byte writes at the
current index; a newline then resets the index to 0, any other byte
increments it. -/
def serialWrites : List Char → Nat → List Nat
  | [], _ => []
  | ch :: rest, i =>
    if ch = '\n' then i :: serialWrites rest 0
    else i :: serialWrites rest (i + 1)

/-- The write index left after processing a byte stream from index `i`. -/
def serialIndex : List Char → Nat → Nat
  | [], i => i
  | ch :: rest, i =>
    if ch = '\n' then serialIndex rest 0
    else serialIndex rest (i + 1)

/-- The claim's precondition on the stream: every maximal newline-free
run of characters has length at most 6, the first run counted from
offset `i` (so `linesBounded cs 0` says every line of `cs` holds at most
6 characters before its terminating newline). -/
def linesBounded : List Char → Nat → Bool
  | [], _ => true
  | ch :: rest, i =>
    if ch = '\n' then linesBounded rest 0
    else decide (i + 1 ≤ 6) && linesBounded rest (i + 1)

/-! ## Theorems -/

/-- Claim C1: the spec says the duty is decremented exactly when the
overcurrent flag is active or the bottom-cell reading exceeds the 4.9 V
sentinel, and that a sentinel overvoltage reading throttles the duty down
every tick.  The code's comparison is inverted (`Vcell[0] < 4.9`): with no
overcurrent, a normal bottom-cell reading of 3.7 V decrements the duty,
a 5.0 V overvoltage reading increments it, and ten sustained 5.0 V
overvoltage ticks raise the duty from 100 to 110 instead of throttling it. -/
theorem C1_pwm_condition_inverted :
    pwmStep false (37/10) 100 = 99 ∧
    pwmStep false 5 100 = 101 ∧
    pwmRun (List.replicate 10 (false, 5)) 100 = 110 := by
  norm_num [pwmRun, pwmStep, pwmThrottle, List.replicate]

/-- Claim C2: the spec says voltages are resolved (and the counter reset)
exactly when the accumulation count exceeds the 100-sample window, with no
resolution while the count is 100 or less.  The code's guard
`if( ++analogReadsCount > 100 ) return;` is inverted: the resolution block
runs precisely when the incremented count is at most 100 (so the very first
tick resolves from a single sample, the tick that reaches count 101 skips
resolution), and since each resolution resets the counter, the counter in
the actual run (started at 0) is 0 after every tick, so every tick resolves. -/
theorem C2_window_guard_inverted :
    windowStep 0 = (true, 0) ∧
    windowStep 100 = (false, 101) ∧
    (∀ c : Nat, (windowStep c).1 = true ↔ c + 1 ≤ 100) ∧
    (∀ n : Nat, windowCount^[n] 0 = 0) := by
  refine ⟨by decide, by decide, ?_, ?_⟩
  · intro c
    unfold windowStep
    split
    · simp only [Bool.false_eq_true, false_iff]; omega
    · simp only [true_iff]; omega
  · intro n
    induction n with
    | zero => rfl
    | succ k ih => rw [Function.iterate_succ_apply, show windowCount 0 = 0 from rfl, ih]

/-- Claim C4: the spec says a B command whose cell digit is outside 1..4 is
rejected with a diagnostic and no mutation, and only cell digits 1..4 write
`Vcalibration[cell-1]`.  The guard `if( cell > cellNumber )` does not bound
the index below nor at the array size: with `cellNumber = 4`, the line
"B51000" (digit 5) passes the guard and writes index 4 of the 4-element
array, and "B01000" (digit 0) passes it and writes index -1 — both outside
the valid indices 0..3. -/
theorem C4_bcommand_accepts_out_of_range_cell :
    bCommand 53 49 48 48 48 4 = BAction.write 4 1 ∧
    bCommand 48 49 48 48 48 4 = BAction.write (-1) 1 ∧
    ¬((4 : ℤ) < 4) ∧ ((-1 : ℤ) < 0) := by
  norm_num [bCommand]

/-- Claim C3, counterexample: with Li-ion thresholds (Vmax 4.2 V, Vmin
3.6 V), every cell recovered to 3.7 V (above Vmin), the first-minute flag
set and the alarm currently active, the next one-second evaluation leaves
the alarm active — it does not clear at the next evaluation as claimed,
because the per-second check only ever sets the flag. -/
theorem C3_alarm_latched_counterexample :
    (36/10 : ℚ) < 37/10 ∧
    buzzerCheck true (42/10) (36/10) ⟨37/10, 37/10, 37/10, 37/10⟩ true = true := by
  norm_num [buzzerCheck, buzzerCell]

/-- Claim C6, counterexample: starting from the initial thresholds
(Li-ion Vmax 4.2 V, Vmin 3.6 V), the console command "LT460" carries the
in-range value 460 and sets Li-ion Vmin to 4.6 V, so after this accepted
threshold command Vmin < Vmax fails for the Li-ion profile. -/
theorem C6_invariant_not_preserved_counterexample :
    (lCommand 84 52 54 48 initThresholds).vminLi = 46/10 ∧
    (lCommand 84 52 54 48 initThresholds).vmaxLi = 42/10 ∧
    ¬((lCommand 84 52 54 48 initThresholds).vminLi <
      (lCommand 84 52 54 48 initThresholds).vmaxLi) := by
  norm_num [lCommand, parse3, initThresholds]

/-- Claim C5, counterexample: the threshold 2.70 V — allowed by the claim's
range [2.70, 4.60] and by the console validation — encodes as the byte
value of `(2.70*100)-300 = -30`, which wraps to 226; it decodes to 5.26 V,
an error of 2.56 V, far beyond the claimed 0.01 V round-trip bound.  (Any
byte whatsoever decodes to at least 3.00 V, so no resolution of the
out-of-range float-to-byte conversion can round-trip 2.70 V.) -/
theorem C5_threshold_roundtrip_counterexample :
    decodeThr (encodeThr (27/10)) = 263/50 ∧
    ¬(|decodeThr (encodeThr (27/10)) - 27/10| ≤ 1/100) := by
  constructor
  · norm_num [encodeThr, decodeThr, Int.toNat]
  · norm_num [encodeThr, decodeThr, Int.toNat]
    rw [abs_of_pos] <;> norm_num

lemma buzzerCell_no_minute (vmax vmin v : ℚ) (b : Bool) :
    buzzerCell false vmax vmin v b = b := by
  simp [buzzerCell]

lemma buzzerCell_keeps_true (m : Bool) (vmax vmin v : ℚ) :
    buzzerCell m vmax vmin v true = true := by
  unfold buzzerCell
  split
  · rfl
  · split <;> rfl

/-- Claim C3 amended: the alarm sounds only when the first-full-minute flag
is set and never before — an evaluation with the flag clear changes
nothing, so any pre-minute run from a silent alarm stays silent.  But the
alarm is not re-evaluated afresh each second: an evaluation never clears an
active alarm whatever the readings, so once raised it stays on until the
next runOnce re-settle pass (start-up, configuration change, or the next
60-second boundary), which is what clears it. -/
theorem C3_alarm_minute_gate_and_latch (vmax vmin : ℚ) (V : Cells) (b m : Bool)
    (steps : List (ℚ × ℚ × Cells)) :
    buzzerCheck false vmax vmin V b = b ∧
    buzzerRunPreMinute steps false = false ∧
    buzzerCheck m vmax vmin V true = true ∧
    runOnceBuzzer b = false := by
  refine ⟨?_, ?_, ?_, rfl⟩
  · simp [buzzerCheck, buzzerCell_no_minute]
  · induction steps with
    | nil => rfl
    | cons s rest ih =>
      simp only [buzzerRunPreMinute, List.foldl_cons] at ih ⊢
      rw [show buzzerCheck false s.1 s.2.1 s.2.2 false = false from by
            simp [buzzerCheck, buzzerCell_no_minute]]
      exact ih
  · simp [buzzerCheck, buzzerCell_keeps_true]

lemma pwmStep_le (i : Bool) (v : ℚ) (p : Nat) (hp : p ≤ 255) :
    pwmStep i v p ≤ 255 := by
  unfold pwmStep
  split <;> split <;> omega

lemma pwmRun_le (inputs : List (Bool × ℚ)) :
    ∀ p : Nat, p ≤ 255 → pwmRun inputs p ≤ 255 := by
  induction inputs with
  | nil => intro p hp; exact hp
  | cons iv rest ih =>
    intro p hp
    exact ih (pwmStep iv.1 iv.2 p) (pwmStep_le iv.1 iv.2 p hp)

lemma pwmStep_ramp_up (p : Nat) :
    pwmStep false (49/10) p = if p < 255 then p + 1 else p := by
  have h : ¬((49 : ℚ)/10 < 49/10) := lt_irrefl _
  simp [pwmStep, pwmThrottle, h]

lemma pwmRun_ramp_up (n : Nat) : ∀ p : Nat, p ≤ 255 →
    pwmRun (List.replicate n (false, 49/10)) p = min (p + n) 255 := by
  induction n with
  | zero => intro p hp; simp [pwmRun]; omega
  | succ k ih =>
    intro p hp
    rw [List.replicate_succ]
    show pwmRun (List.replicate k (false, 49/10)) (pwmStep false (49/10) p)
      = min (p + (k + 1)) 255
    rw [pwmStep_ramp_up]
    by_cases h : p < 255
    · rw [if_pos h, ih (p + 1) (by omega)]; omega
    · rw [if_neg h, ih p hp]; omega

/-- Claim C7: over any sequence of (overcurrent, bottom-cell reading)
inputs the duty never leaves [0,255]; each tick moves the duty by exactly
one step except where it saturates at a bound; 50 consecutive overcurrent
ticks from duty 3 end at 0 (never negative); and sustained ticks taking the
ramp-up branch (no overcurrent, bottom-cell reading at the 4.9 V sentinel,
which under the code's comparison selects the increment branch) drive the
duty from 0 to 255 and hold it there. -/
theorem C7_duty_bounded_saturating (inputs : List (Bool × ℚ)) (i : Bool)
    (v : ℚ) (p q : Nat) (hp : p ≤ 255) (hq : q ≤ 255) :
    pwmRun inputs p ≤ 255 ∧
    (pwmStep i v q = q + 1 ∨ (0 < q ∧ pwmStep i v q = q - 1) ∨
      (q = 0 ∧ pwmStep i v q = 0) ∨ (q = 255 ∧ pwmStep i v q = 255)) ∧
    pwmRun (List.replicate 50 (true, 4)) 3 = 0 ∧
    pwmRun (List.replicate 256 (false, 49/10)) 0 = 255 := by
  refine ⟨pwmRun_le inputs p hp, ?_, ?_, ?_⟩
  · unfold pwmStep
    split
    · split
      · right; left; omega
      · right; right; left; omega
    · split
      · left; rfl
      · right; right; right; omega
  · norm_num [pwmRun, pwmStep, pwmThrottle, List.replicate]
  · rw [pwmRun_ramp_up 256 0 (by norm_num)]; omega

/-- Witness for C7 at a concrete input sequence and duty values. -/
theorem C7_duty_bounded_saturating_witness :
    3 ≤ 255 ∧ 0 ≤ 255 ∧ pwmRun [(true, 4)] 3 ≤ 255 :=
  ⟨by norm_num, by norm_num,
    (C7_duty_bounded_saturating [(true, 4)] true 4 3 0 (by norm_num)
      (by norm_num)).1⟩

/-- Claim C8: with the four absolute node voltages held in `Vcell` before
differencing, the resolver leaves the bottom cell at A0, gives every other
cell the difference from the tap below, takes the supply voltage from the
top tap, and the four per-cell results sum back exactly to A3 (the model is
exact rational arithmetic, so the floating tolerance is 0). -/
theorem C8_telescoping_roundtrip (A : Cells)
    (h01 : A.b0 ≤ A.b1) (h12 : A.b1 ≤ A.b2) (h23 : A.b2 ≤ A.b3) :
    (telescope A).b0 = A.b0 ∧
    (telescope A).b1 = A.b1 - A.b0 ∧
    (telescope A).b2 = A.b2 - A.b1 ∧
    (telescope A).b3 = A.b3 - A.b2 ∧
    resolveValim A = A.b3 ∧
    (telescope A).b0 + (telescope A).b1 + (telescope A).b2 + (telescope A).b3
      = A.b3 := by
  refine ⟨rfl, rfl, rfl, rfl, rfl, ?_⟩
  show A.b0 + (A.b1 - A.b0) + (A.b2 - A.b1) + (A.b3 - A.b2) = A.b3
  ring

/-- Witness for C8 at ascending concrete node voltages. -/
theorem C8_telescoping_roundtrip_witness :
    ((37/10 : ℚ) ≤ 74/10 ∧ (74/10 : ℚ) ≤ 111/10 ∧ (111/10 : ℚ) ≤ 148/10) ∧
    (telescope ⟨37/10, 74/10, 111/10, 148/10⟩).b0 +
      (telescope ⟨37/10, 74/10, 111/10, 148/10⟩).b1 +
      (telescope ⟨37/10, 74/10, 111/10, 148/10⟩).b2 +
      (telescope ⟨37/10, 74/10, 111/10, 148/10⟩).b3 = 148/10 :=
  ⟨⟨by norm_num, by norm_num, by norm_num⟩,
    (C8_telescoping_roundtrip ⟨37/10, 74/10, 111/10, 148/10⟩ (by norm_num)
      (by norm_num) (by norm_num)).2.2.2.2.2⟩

/-- Claim C9: the selector decode follows the fixed truth table (U=1,D=1
gives 4 cells, U=1,D=0 gives 2, U=0,D=1 gives 3, U=0,D=0 gives 1, and the
chemistry is LiFePO4 exactly when C is read high); toggling any single
line relative to the memorised state makes that call set the re-settle
flag, and a repeated call with the lines held steady detects no change
and leaves the whole state fixed. -/
theorem C9_rotactor_table_and_change_detect (u d c : Bool) (s : RotState) :
    (rotactorConfig true true c s).cellNumber = 4 ∧
    (rotactorConfig true false c s).cellNumber = 2 ∧
    (rotactorConfig false true c s).cellNumber = 3 ∧
    (rotactorConfig false false c s).cellNumber = 1 ∧
    ((rotactorConfig u d c s).cellModel = true ↔ c = true) ∧
    rotChanged (!s.memoU) s.memoD s.memoC s = true ∧
    rotChanged s.memoU (!s.memoD) s.memoC s = true ∧
    rotChanged s.memoU s.memoD (!s.memoC) s = true ∧
    (rotactorConfig (!s.memoU) s.memoD s.memoC s).runOnce = true ∧
    rotChanged u d c (rotactorConfig u d c s) = false ∧
    rotactorConfig u d c (rotactorConfig u d c s) = rotactorConfig u d c s := by
  refine ⟨rfl, rfl, rfl, rfl, by simp [rotactorConfig], ?_, ?_, ?_, ?_, ?_, ?_⟩
  · simp [rotChanged]
  · simp [rotChanged]
  · simp [rotChanged]
  · simp [rotactorConfig, rotChanged]
  · simp [rotactorConfig, rotChanged]
  · simp [rotactorConfig, rotChanged]

/-- Claim C5 amended: persisting then reloading round-trips on the
representable ranges: a calibration multiplier in [0.800, 1.200] decodes
back within 0.001 of itself, and a threshold voltage in [3.00, 4.60] —
the part of the claimed [2.70, 4.60] range that fits the single-byte
`(v*100)-300` encoding — decodes back within 0.01 V; thresholds below
3.00 V produce a negative pre-byte value and cannot round-trip. -/
theorem C5_roundtrip_amended (x v : ℚ)
    (hx1 : 8/10 ≤ x) (hx2 : x ≤ 12/10) (hv1 : 3 ≤ v) (hv2 : v ≤ 46/10) :
    |decodeCal (encodeCal x) - x| < 1/1000 ∧
    |decodeThr (encodeThr v) - v| < 1/100 := by
  constructor
  · have hub : ((⌊1000 * x⌋ : ℤ) : ℚ) ≤ 1000 * x := Int.floor_le _
    have hlb : 1000 * x - 1 < ((⌊1000 * x⌋ : ℤ) : ℚ) := Int.sub_one_lt_floor _
    have h800 : (800 : ℤ) ≤ ⌊1000 * x⌋ := by
      rw [Int.le_floor]; push_cast; linarith
    have h1201 : ⌊1000 * x⌋ < 1201 := by
      rw [Int.floor_lt]; push_cast; linarith
    have hn0 : 0 ≤ ⌊1000 * x⌋ := by omega
    have htn : ((⌊1000 * x⌋.toNat : ℕ) : ℤ) = ⌊1000 * x⌋ :=
      Int.toNat_of_nonneg hn0
    have hmod : ⌊1000 * x⌋.toNat / 256 % 256 * 256 + ⌊1000 * x⌋.toNat % 256
        = ⌊1000 * x⌋.toNat := by omega
    have hdec : decodeCal (encodeCal x)
        = ((⌊1000 * x⌋.toNat : ℕ) : ℚ) / 1000 := by
      simp only [encodeCal, decodeCal]
      rw [hmod]
    have hcast : ((⌊1000 * x⌋.toNat : ℕ) : ℚ) = ((⌊1000 * x⌋ : ℤ) : ℚ) := by
      exact_mod_cast congrArg (fun z : ℤ => (z : ℚ)) htn
    rw [hdec, hcast, abs_lt]
    constructor <;> linarith
  · have hub : ((⌊100 * v⌋ : ℤ) : ℚ) ≤ 100 * v := Int.floor_le _
    have hlb : 100 * v - 1 < ((⌊100 * v⌋ : ℤ) : ℚ) := Int.sub_one_lt_floor _
    have h300 : (300 : ℤ) ≤ ⌊100 * v⌋ := by
      rw [Int.le_floor]; push_cast; linarith
    have h461 : ⌊100 * v⌋ < 461 := by
      rw [Int.floor_lt]; push_cast; linarith
    have hemod : (⌊100 * v⌋ - 300).emod 256 = ⌊100 * v⌋ - 300 :=
      Int.emod_eq_of_lt (by omega) (by omega)
    have htn : (((⌊100 * v⌋ - 300).toNat : ℕ) : ℤ) = ⌊100 * v⌋ - 300 :=
      Int.toNat_of_nonneg (by omega)
    have hdec : decodeThr (encodeThr v) = ((⌊100 * v⌋ : ℤ) : ℚ) / 100 := by
      simp only [encodeThr, decodeThr, hemod]
      have hc : (((⌊100 * v⌋ - 300).toNat : ℕ) : ℚ)
          = ((⌊100 * v⌋ : ℤ) : ℚ) - 300 := by
        exact_mod_cast congrArg (fun z : ℤ => (z : ℚ)) htn
      rw [hc]
      ring
    rw [hdec, abs_lt]
    constructor <;> linarith

/-- Witness for C5 at the nominal calibration 1.000 and the Li-ion Vmin
threshold 3.60 V. -/
theorem C5_roundtrip_amended_witness :
    ((8/10 : ℚ) ≤ 1 ∧ (1 : ℚ) ≤ 12/10 ∧ (3 : ℚ) ≤ 36/10 ∧
      (36/10 : ℚ) ≤ 46/10) ∧
    |decodeCal (encodeCal 1) - 1| < 1/1000 ∧
    |decodeThr (encodeThr (36/10)) - 36/10| < 1/100 :=
  ⟨by norm_num,
    C5_roundtrip_amended 1 (36/10) (by norm_num) (by norm_num) (by norm_num)
      (by norm_num)⟩

/-- Claim C6 amended: Vmin < Vmax holds for both chemistry profiles in the
initial state, and the L and H console commands mutate only their targeted
threshold and only with values in the validated range [2.70, 4.60] V; the
commands do not check the relation between Vmin and Vmax, however, so a
validated command can still break Vmin < Vmax (see the counterexample):
the invariant holds initially but is not preserved at all times. -/
theorem C6_thresholds_amended (c1 c2 c3 c4 : ℤ) (s : Thresholds) :
    (initThresholds.vminLi < initThresholds.vmaxLi ∧
     initThresholds.vminFe < initThresholds.vmaxFe) ∧
    ((lCommand c1 c2 c3 c4 s).vminLi = s.vminLi ∨
      (27/10 ≤ (lCommand c1 c2 c3 c4 s).vminLi ∧
        (lCommand c1 c2 c3 c4 s).vminLi ≤ 46/10)) ∧
    ((lCommand c1 c2 c3 c4 s).vminFe = s.vminFe ∨
      (27/10 ≤ (lCommand c1 c2 c3 c4 s).vminFe ∧
        (lCommand c1 c2 c3 c4 s).vminFe ≤ 46/10)) ∧
    (lCommand c1 c2 c3 c4 s).vmaxLi = s.vmaxLi ∧
    (lCommand c1 c2 c3 c4 s).vmaxFe = s.vmaxFe ∧
    ((hCommand c1 c2 c3 c4 s).vmaxLi = s.vmaxLi ∨
      (27/10 ≤ (hCommand c1 c2 c3 c4 s).vmaxLi ∧
        (hCommand c1 c2 c3 c4 s).vmaxLi ≤ 46/10)) ∧
    ((hCommand c1 c2 c3 c4 s).vmaxFe = s.vmaxFe ∨
      (27/10 ≤ (hCommand c1 c2 c3 c4 s).vmaxFe ∧
        (hCommand c1 c2 c3 c4 s).vmaxFe ≤ 46/10)) ∧
    (hCommand c1 c2 c3 c4 s).vminLi = s.vminLi ∧
    (hCommand c1 c2 c3 c4 s).vminFe = s.vminFe := by
  refine ⟨by norm_num [initThresholds], ?_⟩
  by_cases hrange : parse3 c2 c3 c4 < 270 ∨ 460 < parse3 c2 c3 c4
  · simp [lCommand, hCommand, hrange]
  · push_neg at hrange
    have hlo : (27/10 : ℚ) ≤ (parse3 c2 c3 c4 : ℚ) / 100 := by
      have hcast : (270 : ℚ) ≤ (parse3 c2 c3 c4 : ℚ) := by
        exact_mod_cast hrange.1
      linarith
    have hhi : ((parse3 c2 c3 c4 : ℚ) / 100) ≤ 46/10 := by
      have hcast : (parse3 c2 c3 c4 : ℚ) ≤ 460 := by exact_mod_cast hrange.2
      linarith
    have hr : ¬(parse3 c2 c3 c4 < 270 ∨ 460 < parse3 c2 c3 c4) := by omega
    simp only [lCommand, hCommand, if_neg hr]
    split_ifs <;> simp_all

lemma serial_bounded_aux (cs : List Char) : ∀ i : Nat,
    linesBounded cs i = true → i ≤ 6 →
    (∀ j ∈ serialWrites cs i, j ≤ 6) ∧ serialIndex cs i ≤ 6 := by
  induction cs with
  | nil =>
    intro i _ hi
    exact ⟨by simp [serialWrites], by simpa [serialIndex] using hi⟩
  | cons ch rest ih =>
    intro i hb hi
    by_cases hch : ch = '\n'
    · simp only [serialWrites, serialIndex, linesBounded, if_pos hch] at hb ⊢
      have h := ih 0 hb (by omega)
      exact ⟨by
        intro j hj
        rcases List.mem_cons.mp hj with h1 | h2
        · omega
        · exact h.1 j h2, h.2⟩
    · simp only [serialWrites, serialIndex, linesBounded, if_neg hch,
        Bool.and_eq_true, decide_eq_true_eq] at hb ⊢
      have h := ih (i + 1) hb.2 (by omega)
      exact ⟨by
        intro j hj
        rcases List.mem_cons.mp hj with h1 | h2
        · omega
        · exact h.1 j h2, h.2⟩

/-- Claim C10: for any console byte stream whose newline-free runs hold at
most 6 characters, every write lands at an index in 0..6 of the 7-byte
`consoleInput` buffer and the write index stays in 0..6; the bound is
exact: a 7-character line ("ABCDEFG" then newline) makes the terminating
null write land at index 7, outside the buffer. -/
theorem C10_serial_buffer_safety (cs : List Char)
    (h : linesBounded cs 0 = true) :
    (∀ j ∈ serialWrites cs 0, j ≤ 6) ∧ serialIndex cs 0 ≤ 6 ∧
    7 ∈ serialWrites ("ABCDEFG\n".toList) 0 := by
  refine ⟨(serial_bounded_aux cs 0 h (by omega)).1,
    (serial_bounded_aux cs 0 h (by omega)).2, ?_⟩
  decide

/-- Witness for C10 on the concrete console line "B1000". -/
theorem C10_serial_buffer_safety_witness :
    linesBounded ("B1000\n".toList) 0 = true ∧
    (∀ j ∈ serialWrites ("B1000\n".toList) 0, j ≤ 6) :=
  ⟨by decide,
    (C10_serial_buffer_safety ("B1000\n".toList) (by decide)).1⟩

end BMS
